import Mathlib

/-!
Shallow embedding of `ota_github_server.py` (the OTA release sync server):
the release materializer `fetch_github_release`, the tag source
`get_latest_tags`, the sync loop `sync_latest_releases`, and the three
state-mutating GET endpoints (`/set_version`, `/sync_now`, `/rollback`)
of `AuthHandler.do_GET`.

Filesystem state is modelled per project as the set of version
directories (tag name, with the list of extracted files) together with
the plain-text pointer files living next to them (name, content).
The remote GitHub host is modelled as the data the server observes: the
tag-listing response and, per tag, the archive endpoint's response.
Local write failures are injected through a list of file base names whose
`open(..., 'wb')` raises `OSError`.

Modelling notes, for fidelity to the source:
* `requests` failures (tag listing, archive download `raise_for_status`)
  are `requestError` (`requests.exceptions.RequestException`); an
  unreadable archive body is `badZip` (`zipfile.BadZipFile`); a local
  write failure is `ioError` (`OSError`).  Only `requestError` is caught
  by `sync_latest_releases` (line 246 of the source).
* A missing project directory makes `os.listdir` / `open` raise in the
  source; the model's global store is total with an empty default, and
  theorems about `/rollback` and `/set_version` carry the hypothesis
  that the project's directory entry exists.
-/

namespace Ota

/-- A file materialized inside a version directory: flattened base name and
byte content (modelled as a string). -/
structure OtaFile where
  name : String
  content : String
deriving DecidableEq, Repr

/-- One member of the downloaded release zip archive. -/
structure ZipEntry where
  filename : String
  content : String
deriving DecidableEq, Repr

/-- The archive endpoint's behaviour for one tag:
a readable zip, a non-success HTTP status (`raise_for_status` raises
`requests.exceptions.RequestException`), or a body that is not a zip
(`zipfile.ZipFile` raises `zipfile.BadZipFile`). -/
inductive ArchiveResp
  | ok (entries : List ZipEntry)
  | httpError
  | corrupt
deriving DecidableEq, Repr

/-- The remote GitHub repository as observed by the server: the
`/repos/.../tags` response (`none` = network/transport failure) in the
host's order, and the archive endpoint per tag (a tag not listed behaves
as a failing download). -/
structure Remote where
  tagsResp : Option (List String)
  archives : List (String × ArchiveResp)
deriving DecidableEq, Repr

/-- Error taxonomy as raised by the Python code. -/
inductive OtaError
  | requestError
  | badZip
  | ioError
deriving DecidableEq, Repr

/-- Result of one `fetch_github_release` call. -/
inductive FetchOutcome
  | alreadyPresent
  | created
  | failed (e : OtaError)
deriving DecidableEq, Repr

/-- On-disk state of one project directory under `OTA_DIR`: version
directories (tag name paired with the files extracted into it) and the
plain-text pointer files next to them (file name paired with content). -/
structure ProjStore where
  dirs : List (String × List OtaFile)
  pointers : List (String × String)
deriving DecidableEq, Repr

/-- Update an association list at a key, keeping one binding per key. -/
def setA {α : Type} (k : String) (v : α) : List (String × α) → List (String × α)
  | [] => [(k, v)]
  | (k₀, v₀) :: rest => if k₀ = k then (k, v) :: rest else (k₀, v₀) :: setA k v rest

/-- Write (create or overwrite) a file of the given base name in a version
directory, as the `open(..., 'wb')` / `f.write` of the extraction loop does. -/
def setFile (n c : String) : List OtaFile → List OtaFile
  | [] => [⟨n, c⟩]
  | f :: rest => if f.name = n then ⟨n, c⟩ :: rest else f :: setFile n c rest

/-- Python `os.path.basename`: the component after the final slash. -/
def basename (s : String) : String :=
  String.mk ((s.data.reverse.takeWhile (fun c => c ≠ '/')).reverse)

/-- Substring test on character lists: some suffix of `hay` starts with
`needle`. -/
def containsL (needle : List Char) : List Char → Bool
  | [] => needle.isEmpty
  | c :: rest => needle.isPrefixOf (c :: rest) || containsL needle rest

/-- Python `needle in hay` on strings (substring test). -/
def strContains (hay needle : String) : Bool := containsL needle.data hay.data

/-- Python string `<=`: lexicographic comparison by code point. -/
def charListLe : List Char → List Char → Bool
  | [], _ => true
  | _ :: _, [] => false
  | a :: as, b :: bs =>
    if a.toNat < b.toNat then true
    else if b.toNat < a.toNat then false
    else charListLe as bs

/-- Python string `<=` lifted to `String`. -/
def pyLe (a b : String) : Bool := charListLe a.data b.data

/-- The file-selection rule of the extraction loop (source line 217):
`zip_info.filename.endswith(".py") and "/src/" in zip_info.filename`. -/
def wantedEntry (e : ZipEntry) : Bool :=
  ".py".data.isSuffixOf e.filename.data && strContains e.filename "/src/"

/-- The extraction loop of `fetch_github_release` (source lines 215-220):
write each matching entry, flattened to its base name, into the version
directory; a base name in `badWrites` makes the write raise `OSError`,
leaving the files written so far on disk. -/
def writeEntries (badWrites : List String) :
    List ZipEntry → List OtaFile → List OtaFile × Option OtaError
  | [], files => (files, none)
  | e :: rest, files =>
    if wantedEntry e then
      let tname := basename e.filename
      if tname ∈ badWrites then (files, some .ioError)
      else writeEntries badWrites rest (setFile tname e.content files)
    else writeEntries badWrites rest files

/-- The idempotence check of source line 205:
`os.path.exists(release_path) and os.listdir(release_path)`. -/
def dirNonEmpty (st : ProjStore) (tag : String) : Bool :=
  !((st.dirs.lookup tag).getD []).isEmpty

/-- Embedding of `fetch_github_release(tag, project, repo)` (source lines
192-226) acting on one project's directory.  Returns the updated directory
state, the outcome, and the number of archive downloads performed.
Steps, in source order: the idempotence check (early return, no network);
`os.makedirs(..., exist_ok=True)`; the archive GET with `raise_for_status`;
`zipfile.ZipFile` on the body; the extraction loop; finally the write of
the `version` pointer file (lines 222-224), only reached when every file
write succeeded. -/
def fetch_github_release (remote : Remote) (badWrites : List String)
    (tag : String) (st : ProjStore) : ProjStore × FetchOutcome × Nat :=
  let existing := (st.dirs.lookup tag).getD []
  if dirNonEmpty st tag then
    (st, .alreadyPresent, 0)
  else
    let st₁ : ProjStore := { st with dirs := setA tag existing st.dirs }
    match (remote.archives.lookup tag).getD .httpError with
    | .httpError => (st₁, .failed .requestError, 1)
    | .corrupt => (st₁, .failed .badZip, 1)
    | .ok entries =>
      let we := writeEntries badWrites entries existing
      let st₂ : ProjStore := { st₁ with dirs := setA tag we.1 st₁.dirs }
      match we.2 with
      | some e => (st₂, .failed e, 1)
      | none =>
        ({ st₂ with pointers := setA "version" tag st₂.pointers }, .created, 1)

/-- Embedding of `get_latest_tags(repo, count)` (source lines 175-190):
the tag names in the host's order, truncated to `count`; a transport
failure or non-success status raises `requests.exceptions.RequestException`. -/
def get_latest_tags (remote : Remote) (count : Nat) : Except OtaError (List String) :=
  match remote.tagsResp with
  | none => .error .requestError
  | some tags => .ok ((tags.take count))

/-- The `for tag in tags: fetch_github_release(...)` loop shared by
`/sync_now` (lines 144-145) and `sync_latest_releases` (lines 243-245):
fetch each tag in the given order; the first exception aborts the
remaining tags.  Returns the state, the raised error if any, and the
total number of archive downloads. -/
def syncTags (remote : Remote) (badWrites : List String) :
    List String → ProjStore → ProjStore × Option OtaError × Nat
  | [], st => (st, none, 0)
  | t :: rest, st =>
    match fetch_github_release remote badWrites t st with
    | (st₁, .failed e, n) => (st₁, some e, n)
    | (st₁, _, n) =>
      let r := syncTags remote badWrites rest st₁
      (r.1, r.2.1, n + r.2.2)

/-- One project's sync body (`get_latest_tags` with `count=2`, then the
fetch loop), as run by both `/sync_now` and `sync_latest_releases`.
Returns the state, the raised error if any, and the fetched tag list. -/
def sync_project (remote : Remote) (badWrites : List String) (st : ProjStore) :
    ProjStore × Option OtaError × List String :=
  match get_latest_tags remote 2 with
  | .error e => (st, some e, [])
  | .ok tags =>
    let r := syncTags remote badWrites tags st
    (r.1, r.2.1, tags)

/-- Python `sorted(...)` on a list of strings: a stable ascending sort by
the lexicographic (code-point) string order.  This is the only ordering
the code ever applies to tags or directory names (source lines 73, 159). -/
def pySorted (l : List String) : List String :=
  List.insertionSort (fun a b => pyLe a b = true) l

/-- The newest-first tag order the code's behaviour induces: `/rollback`
takes `sorted(versions)[-2]` (source lines 159-163), i.e. it treats the
lexicographically largest directory name as newest, so newest-first order
is the reverse of Python `sorted`. -/
def codeOrder (tags : List String) : List String := (pySorted tags).reverse

/-- The server's global on-disk state: one directory entry per project
under `OTA_DIR`. -/
abbrev GlobalStore : Type := List (String × ProjStore)

/-- Read one project's directory (empty default; see modelling notes). -/
def storeOf (g : GlobalStore) (p : String) : ProjStore :=
  (List.lookup p g).getD ⟨[], []⟩

/-- The `PROJECTS` configuration: project name paired with the remote
repository it tracks (the behaviour the server observes from that repo). -/
abbrev Config : Type := List (String × Remote)

/-- Python `project in PROJECTS` where `project` may be `None`
(`query.get("project", [None])[0]`). -/
def knownProject (config : Config) (p : Option String) : Bool :=
  match p with
  | none => false
  | some q => (List.lookup q config).isSome

/-- Python truthiness of the optional `version` query parameter:
present and a non-empty string. -/
def truthy (v : Option String) : Bool :=
  match v with
  | none => false
  | some s => !(s == "")

/-- A GET request as seen by the handler after `urlparse`/`parse_qs`:
the path and the `project` and `version` query parameters. -/
structure Request where
  path : String
  project : Option String
  version : Option String
deriving DecidableEq, Repr

/-- Response of `AuthHandler.do_GET` for an authenticated request:
200, 400, 500 (with the exception that was stringified into the body),
or the fall-through to `SimpleHTTPRequestHandler.do_GET` (static file
serving / directory listing). -/
inductive GetResult
  | ok
  | badRequest
  | serverError (e : OtaError)
  | staticServe
deriving DecidableEq, Repr

/-- The directory names `os.listdir(project_path)` yields filtered by
`os.path.isdir` (source line 159): exactly the version directories; the
sibling `version` pointer file is not a directory and is excluded. -/
def listVersionDirs (st : ProjStore) : List String := st.dirs.map Prod.fst

/-- Embedding of the state-mutating part of `AuthHandler.do_GET`
(source lines 106-173), for an authenticated request.  Branches in source
order: `/set_version` (121-136), `/sync_now` (138-153), `/rollback`
(155-171); note `/sync_now` and `/rollback` fall through to static file
serving when the project is unknown (their `if` has no `else`), while
`/set_version` answers 400. -/
def do_GET (config : Config) (badWrites : List String) (req : Request)
    (g : GlobalStore) : GlobalStore × GetResult :=
  if req.path = "/set_version" then
    if truthy req.version && knownProject config req.project then
      let p := req.project.getD ""
      let v := req.version.getD ""
      let st := storeOf g p
      (setA p { st with pointers := setA "version" v st.pointers } g, .ok)
    else
      (g, .badRequest)
  else if req.path = "/sync_now" && knownProject config req.project then
    let p := req.project.getD ""
    let remote := (List.lookup p config).getD ⟨none, []⟩
    let r := sync_project remote badWrites (storeOf g p)
    match r.2.1 with
    | some e => (setA p r.1 g, .serverError e)
    | none => (setA p r.1 g, .ok)
  else if req.path = "/rollback" && knownProject config req.project then
    let p := req.project.getD ""
    let st := storeOf g p
    let versions := pySorted (listVersionDirs st)
    if 2 ≤ versions.length then
      let target := versions.getD (versions.length - 2) ""
      (setA p { st with pointers := setA "version" target st.pointers } g, .ok)
    else
      (g, .badRequest)
  else
    (g, .staticServe)

/-- Embedding of `sync_latest_releases()` (source lines 228-247): for each
configured project run the sync body; `except requests.exceptions.
RequestException` catches only network errors (line 246) — a `badZip` or
`ioError` exception escapes the loop and aborts the remaining projects.
Returns the state reached and the escaped exception, if any. -/
def sync_latest_releases (badWrites : List String) :
    Config → GlobalStore → GlobalStore × Option OtaError
  | [], g => (g, none)
  | (p, remote) :: rest, g =>
    match (sync_project remote badWrites (storeOf g p)).2.1 with
    | none =>
      sync_latest_releases badWrites rest
        (setA p (sync_project remote badWrites (storeOf g p)).1 g)
    | some .requestError =>
      sync_latest_releases badWrites rest
        (setA p (sync_project remote badWrites (storeOf g p)).1 g)
    | some .badZip =>
      (setA p (sync_project remote badWrites (storeOf g p)).1 g, some .badZip)
    | some .ioError =>
      (setA p (sync_project remote badWrites (storeOf g p)).1 g, some .ioError)

/-- Split a character list at every occurrence of a separator character. -/
def splitOnCharAux (sep : Char) : List Char → List Char → List (List Char)
  | [], acc => [acc.reverse]
  | c :: rest, acc =>
    if c = sep then acc.reverse :: splitOnCharAux sep rest []
    else splitOnCharAux sep rest (c :: acc)

/-- Split a string at every occurrence of a separator character. -/
def splitOnChar (sep : Char) (s : String) : List (List Char) :=
  splitOnCharAux sep s.data []

/-- Parse a non-empty all-digit character list as a natural number. -/
def digitsToNat : List Char → Option Nat
  | [] => none
  | l =>
    if l.all Char.isDigit then
      some (l.foldl (fun n c => 10 * n + (c.toNat - 48)) 0)
    else none

/-- Modelled from the spec: section 4.1 Version Ordering, which is absent
from the code (the code only ever applies Python `sorted`).  Parse a tag
as a semantic version `major.minor.patch`, the patch part optionally
carrying a `-prerelease` suffix which is ignored for the comparisons the
claims need. -/
def parseSemver (s : String) : Option (Nat × Nat × Nat) :=
  match splitOnChar '.' s with
  | [a, b, c] =>
    match digitsToNat a, digitsToNat b, digitsToNat ((splitOnCharAux '-' c []).headD c) with
    | some x, some y, some z => some (x, y, z)
    | _, _, _ => none
  | _ => none

/-- Modelled from the spec: the comparator of section 4.1 — `a` may come
before `b` in newest-first order iff `a`'s parsed version is at least
`b`'s; every parseable tag precedes every malformed one; malformed tags
compare lexicographically descending. -/
def specBefore (a b : String) : Bool :=
  match parseSemver a, parseSemver b with
  | some x, some y => decide (y ≤ x)
  | some _, none => true
  | none, some _ => false
  | none, none => pyLe b a

/-- Modelled from the spec: `order(tags)` of section 4.1, newest first,
as a stable insertion sort by `specBefore`. -/
def specOrder (tags : List String) : List String :=
  List.insertionSort (fun a b => specBefore a b = true) tags

/-! Interleaving model for the concurrency claims.  The server runs the
periodic sync in a separate daemon thread (source line 262) next to the
request handler, with no lock anywhere, so two `fetch_github_release`
calls for the same `(project, tag)` can be in flight at once.  One call
is split at its only suspension point, the blocking archive download of
lines 212-213: the first atomic section is the idempotence check plus
`makedirs` plus issuing the GET (lines 204-212), the second is processing
the response — extraction and the `version` pointer write (lines
215-224).  Every schedule of these coarse sections is a possible real
execution. -/

/-- Phase of one in-flight `fetch_github_release` call: not yet started,
blocked in the archive download, or returned. -/
inductive FetchPhase
  | ready
  | downloading
  | done
deriving DecidableEq, Repr

/-- Two concurrent `fetch_github_release` calls for the same
`(project, tag)` on the shared project directory, with the count of
archive downloads issued so far. -/
structure TwoSync where
  store : ProjStore
  ph0 : FetchPhase
  ph1 : FetchPhase
  downloads : Nat
deriving DecidableEq, Repr

/-- One atomic section of one call (success path: the archive is a
readable zip with the given entries). -/
def fetchStep (entries : List ZipEntry) (tag : String) (st : ProjStore)
    (ph : FetchPhase) : ProjStore × FetchPhase × Nat :=
  match ph with
  | .ready =>
    if dirNonEmpty st tag then (st, .done, 0)
    else
      ({ st with dirs := setA tag ((st.dirs.lookup tag).getD []) st.dirs }, .downloading, 1)
  | .downloading =>
    let files := (writeEntries [] entries ((st.dirs.lookup tag).getD [])).1
    ({ dirs := setA tag files st.dirs, pointers := setA "version" tag st.pointers }, .done, 0)
  | .done => (st, .done, 0)

/-- Let the scheduled thread (`false` = first, `true` = second) run its
next atomic section. -/
def twoSyncStep (entries : List ZipEntry) (tag : String) (t : Bool)
    (s : TwoSync) : TwoSync :=
  if t then
    let r := fetchStep entries tag s.store s.ph1
    { store := r.1, ph0 := s.ph0, ph1 := r.2.1, downloads := s.downloads + r.2.2 }
  else
    let r := fetchStep entries tag s.store s.ph0
    { store := r.1, ph0 := r.2.1, ph1 := s.ph1, downloads := s.downloads + r.2.2 }

/-- Run a schedule of atomic sections. -/
def twoSyncRun (entries : List ZipEntry) (tag : String) (sched : List Bool)
    (s : TwoSync) : TwoSync :=
  sched.foldl (fun acc t => twoSyncStep entries tag t acc) s

/-! Model of one `version` pointer file update as performed by the code
(source lines 126-127 and 222-224): `open(version_file, "w")` truncates
the file in place, then `vf.write(tag)` stores the new content.  There is
no temp-file-and-rename, so a concurrent reader can open the file between
the two steps. -/

/-- The two steps of `open(..., "w")` followed by `write`. -/
inductive WriteStep
  | openTruncate
  | writeBody
deriving DecidableEq, Repr

/-- Effect of one step on the pointer file's content. -/
def writeStepFile (tag : String) (_fileContent : String) : WriteStep → String
  | .openTruncate => ""
  | .writeBody => tag

/-- The successive contents a reader can observe while the pointer file is
updated from `old` to `tag`: before the update, after the truncating
`open`, and after the `write`. -/
def pointerWriteTrace (old tag : String) : List String :=
  [old,
   writeStepFile tag old .openTruncate,
   writeStepFile tag (writeStepFile tag old .openTruncate) .writeBody]

/-! Concrete instances used by the witnesses and counterexamples. -/

/-- A repository with three tags in the host's (newest-first) order and
readable archives for the top two, each holding one selectable file. -/
def remoteApp : Remote :=
  { tagsResp := some ["v1.2.0", "v1.1.0", "v1.0.0"],
    archives := [("v1.2.0", .ok [⟨"app-1.2.0/src/main.py", "m12"⟩]),
                 ("v1.1.0", .ok [⟨"app-1.1.0/src/main.py", "m11"⟩])] }

/-- Configuration with the single project `app` tracking `remoteApp`. -/
def appConfig : Config := [("app", remoteApp)]

/-- Fresh store: the `app` project directory exists and is empty. -/
def gApp : GlobalStore := [("app", ⟨[], []⟩)]

/-- A repository with one tag and a readable archive with one file. -/
def remoteOne : Remote :=
  { tagsResp := some ["v1.0.0"],
    archives := [("v1.0.0", .ok [⟨"app-1.0.0/src/main.py", "m"⟩])] }

/-- A repository whose single tag's archive body is not a readable zip. -/
def remoteCorrupt : Remote :=
  { tagsResp := some ["v1.0.0"], archives := [("v1.0.0", .corrupt)] }

/-- A repository whose tag listing fails at the network level. -/
def remoteOffline : Remote := { tagsResp := none, archives := [] }

/-- A project directory holding three materialized version directories
whose lexicographic and semantic-version orders disagree. -/
def stRollback : ProjStore :=
  ⟨[("1.10.0", [⟨"main.py", "a"⟩]),
    ("1.2.0", [⟨"main.py", "b"⟩]),
    ("1.9.0", [⟨"main.py", "c"⟩])],
   [("version", "1.10.0")]⟩

/-- The entries of `remoteOne`'s archive. -/
def entriesOne : List ZipEntry := [⟨"app-1.0.0/src/main.py", "m"⟩]

/-- Every pointer file in this set is the `version` file. -/
abbrev versionOnly (pts : List (String × String)) : Prop :=
  ∀ kv ∈ pts, kv.1 = "version"

/-- Every project's pointer files consist at most of `version` — the shape
every state reachable by this program has. -/
abbrev onlyVersionPointers (g : GlobalStore) : Prop :=
  ∀ ps ∈ g, versionOnly ps.2.pointers

/-! Helper lemmas about association-list update. -/

theorem lookup_setA_self {α : Type} (k : String) (v : α) :
    ∀ l : List (String × α), List.lookup k (setA k v l) = some v := by
  intro l
  induction l with
  | nil => simp [setA, List.lookup]
  | cons hd tl ih =>
    by_cases h : hd.1 = k
    · simp [setA, h, List.lookup]
    · have hk : (k == hd.1) = false := by
        simp [beq_eq_false_iff_ne]
        exact Ne.symm h
      simp only [setA, if_neg h]
      simp [List.lookup, hk, ih]

theorem lookup_setA_ne {α : Type} (k q : String) (v : α) (hne : q ≠ k) :
    ∀ l : List (String × α), List.lookup q (setA k v l) = List.lookup q l := by
  intro l
  have hqk : (q == k) = false := by simp [beq_eq_false_iff_ne, hne]
  induction l with
  | nil => simp [setA, List.lookup, hqk]
  | cons hd tl ih =>
    by_cases h : hd.1 = k
    · subst h
      simp [setA, List.lookup, hqk, ih]
    · simp only [setA, if_neg h]
      by_cases hq : (q == hd.1) = true
      · simp [List.lookup, hq]
      · simp at hq
        have hq2 : (q == hd.1) = false := by simp [beq_eq_false_iff_ne, hq]
        simp [List.lookup, hq2, ih]

theorem mem_setA {α : Type} (k : String) (v : α) (kv : String × α) :
    ∀ l : List (String × α), kv ∈ setA k v l → kv = (k, v) ∨ kv ∈ l := by
  intro l
  induction l with
  | nil => intro h; simp [setA] at h; exact Or.inl h
  | cons hd tl ih =>
    intro h
    by_cases hk : hd.1 = k
    · simp only [setA, if_pos hk, List.mem_cons] at h
      rcases h with h | h
      · exact Or.inl h
      · exact Or.inr (List.mem_cons_of_mem _ h)
    · simp only [setA, if_neg hk, List.mem_cons] at h
      rcases h with h | h
      · exact Or.inr (h ▸ List.mem_cons_self _ _)
      · rcases ih h with h₁ | h₁
        · exact Or.inl h₁
        · exact Or.inr (List.mem_cons_of_mem _ h₁)

theorem lookup_mem {α : Type} (k : String) (v : α) :
    ∀ l : List (String × α), List.lookup k l = some v → (k, v) ∈ l := by
  intro l
  induction l with
  | nil => intro h; simp [List.lookup] at h
  | cons hd tl ih =>
    intro h
    by_cases hk : (k == hd.1) = true
    · have hv : hd.2 = v := by simpa [List.lookup, hk] using h
      have hk2 : k = hd.1 := eq_of_beq hk
      exact List.mem_cons.mpr (Or.inl (by rw [hk2, ← hv]))
    · simp only [Bool.not_eq_true] at hk
      exact List.mem_cons.mpr (Or.inr (ih (by simpa [List.lookup, hk] using h)))

/-- Exhaustive description of what one `fetch_github_release` call does to
the pointer files: either it leaves them untouched, or the call succeeded
with `created` and wrote exactly the `version` pointer. -/
theorem fetch_pointers_cases (remote : Remote) (badWrites : List String)
    (tag : String) (st : ProjStore) :
    (fetch_github_release remote badWrites tag st).1.pointers = st.pointers ∨
    ((fetch_github_release remote badWrites tag st).2.1 = .created ∧
     (fetch_github_release remote badWrites tag st).1.pointers =
       setA "version" tag st.pointers) := by
  unfold fetch_github_release
  by_cases hd : dirNonEmpty st tag
  · simp [hd]
  · simp only [hd, if_false, Bool.false_eq_true]
    cases harch : (remote.archives.lookup tag).getD .httpError with
    | httpError => exact Or.inl rfl
    | corrupt => exact Or.inl rfl
    | ok entries =>
      cases hwe : (writeEntries badWrites entries ((st.dirs.lookup tag).getD [])).2 with
      | some e => simp [hwe]
      | none => simp [hwe]

/-- C3: materialization is idempotent — when the version directory exists
and is non-empty, `fetch_github_release` returns at the check of source
line 205: no network access, the directory state unchanged, and a second
call in sequence returns the same result as the first. -/
theorem fetch_already_present_idempotent (remote : Remote)
    (badWrites : List String) (tag : String) (st : ProjStore)
    (h : dirNonEmpty st tag = true) :
    fetch_github_release remote badWrites tag st = (st, .alreadyPresent, 0) ∧
    fetch_github_release remote badWrites tag
        (fetch_github_release remote badWrites tag st).1 =
      fetch_github_release remote badWrites tag st := by
  have h1 : fetch_github_release remote badWrites tag st = (st, .alreadyPresent, 0) := by
    unfold fetch_github_release
    simp [h]
  exact ⟨h1, by rw [h1]; exact h1⟩

/-- Witness for C3 at a concrete non-empty version directory. -/
theorem fetch_already_present_idempotent_witness :
    fetch_github_release remoteOne [] "v1.0.0"
        ⟨[("v1.0.0", [⟨"main.py", "m"⟩])], [("version", "v1.0.0")]⟩ =
      (⟨[("v1.0.0", [⟨"main.py", "m"⟩])], [("version", "v1.0.0")]⟩, .alreadyPresent, 0) ∧
    fetch_github_release remoteOne [] "v1.0.0"
        (fetch_github_release remoteOne [] "v1.0.0"
          ⟨[("v1.0.0", [⟨"main.py", "m"⟩])], [("version", "v1.0.0")]⟩).1 =
      fetch_github_release remoteOne [] "v1.0.0"
        ⟨[("v1.0.0", [⟨"main.py", "m"⟩])], [("version", "v1.0.0")]⟩ :=
  fetch_already_present_idempotent remoteOne [] "v1.0.0"
    ⟨[("v1.0.0", [⟨"main.py", "m"⟩])], [("version", "v1.0.0")]⟩ (by decide)

/-- C4: a materialization that fails — download failure, corrupt archive,
or local write failure — advances no pointer record: the `version` write
of source lines 222-224 is only reached after every file write succeeded,
so on failure the pointer files hold their pre-operation values. -/
theorem fetch_failure_preserves_pointers (remote : Remote)
    (badWrites : List String) (tag : String) (st : ProjStore) (e : OtaError)
    (h : (fetch_github_release remote badWrites tag st).2.1 = .failed e) :
    (fetch_github_release remote badWrites tag st).1.pointers = st.pointers := by
  rcases fetch_pointers_cases remote badWrites tag st with hc | hc
  · exact hc
  · rw [hc.1] at h
    exact absurd h (by simp)

/-- Witness for C4 at a concrete corrupt-archive failure. -/
theorem fetch_failure_preserves_pointers_witness :
    (fetch_github_release remoteCorrupt [] "v1.0.0"
      ⟨[], [("version", "v0.9.0")]⟩).1.pointers = [("version", "v0.9.0")] :=
  fetch_failure_preserves_pointers remoteCorrupt [] "v1.0.0"
    ⟨[], [("version", "v0.9.0")]⟩ .badZip (by decide)

/-- C1: evaluation at the claim's own scenario — remote tags
`["v1.2.0", "v1.1.0", "v1.0.0"]`, fresh store, `GET /sync_now?project=app`.
The sync succeeds and materializes the top two tags, but because the
`version` pointer is written inside `fetch_github_release` after each
fetch (source lines 222-224) and the loop of lines 144-145 runs
newest-first, the last write wins and the pointer ends at the older tag
`v1.1.0`, not at the newest tag `v1.2.0` demanded by the claim. -/
theorem sync_now_leaves_version_at_older_tag :
    (do_GET appConfig [] ⟨"/sync_now", some "app", none⟩ gApp).2 = .ok ∧
    (storeOf (do_GET appConfig [] ⟨"/sync_now", some "app", none⟩ gApp).1
        "app").dirs.lookup "v1.2.0" = some [⟨"main.py", "m12"⟩] ∧
    (storeOf (do_GET appConfig [] ⟨"/sync_now", some "app", none⟩ gApp).1
        "app").dirs.lookup "v1.1.0" = some [⟨"main.py", "m11"⟩] ∧
    (storeOf (do_GET appConfig [] ⟨"/sync_now", some "app", none⟩ gApp).1
        "app").pointers.lookup "version" = some "v1.1.0" ∧
    some "v1.1.0" ≠ some "v1.2.0" := by decide

/-- C10: the pointer write of source lines 126-127 / 222-224 is
`open(..., "w")` then `write`, so between the truncating open and the
write a concurrent reader of the pointer file observes the empty string —
neither the complete old value nor the complete new one. -/
theorem pointer_write_not_atomic :
    pointerWriteTrace "v1.2.0" "v1.1.0" = ["v1.2.0", "", "v1.1.0"] ∧
    "" ∈ pointerWriteTrace "v1.2.0" "v1.1.0" ∧
    ("" : String) ≠ "v1.2.0" ∧ ("" : String) ≠ "v1.1.0" := by decide

/-- Counterexample to C9: with no lock anywhere in the program, the
interleaving in which both `fetch_github_release` calls for the same
`(project, tag)` pass the idempotence check before either finishes issues
two archive downloads, not the single materialization pass the claim
requires. -/
theorem two_syncs_duplicate_download :
    (twoSyncRun entriesOne "v1.0.0" [false, true, false, true]
      ⟨⟨[], []⟩, .ready, .ready, 0⟩).downloads = 2 ∧
    ¬ (twoSyncRun entriesOne "v1.0.0" [false, true, false, true]
      ⟨⟨[], []⟩, .ready, .ready, 0⟩).downloads = 1 := by decide

/-- C9 as amended: nothing serializes two syncs of the same project.  Run
serially, the second call hits the idempotence check and only one download
happens; the racing interleaving downloads the same tag twice; both end in
the same final directory state. -/
theorem two_syncs_no_mutual_exclusion :
    (twoSyncRun entriesOne "v1.0.0" [false, false, true]
      ⟨⟨[], []⟩, .ready, .ready, 0⟩).downloads = 1 ∧
    (twoSyncRun entriesOne "v1.0.0" [false, true, false, true]
      ⟨⟨[], []⟩, .ready, .ready, 0⟩).downloads = 2 ∧
    (twoSyncRun entriesOne "v1.0.0" [false, true, false, true]
        ⟨⟨[], []⟩, .ready, .ready, 0⟩).store =
      (twoSyncRun entriesOne "v1.0.0" [false, false, true]
        ⟨⟨[], []⟩, .ready, .ready, 0⟩).store := by decide

/-- Counterexample to C2: with version directories
`["1.10.0", "1.2.0", "1.9.0"]` materialized, `/rollback` (which takes
`sorted(versions)[-2]`, source lines 159-163) sets the pointer to
`"1.2.0"`, while the second-newest tag under the spec's semantic-version
ordering is `"1.9.0"`. -/
theorem rollback_not_semver_aware :
    (storeOf (do_GET [("app", remoteApp)] [] ⟨"/rollback", some "app", none⟩
        [("app", stRollback)]).1 "app").pointers.lookup "version" = some "1.2.0" ∧
    specOrder ["1.10.0", "1.2.0", "1.9.0"] = ["1.10.0", "1.9.0", "1.2.0"] ∧
    (specOrder ["1.10.0", "1.2.0", "1.9.0"]).getD 1 "" = "1.9.0" ∧
    ("1.2.0" : String) ≠ "1.9.0" := by decide

/-- Counterexample to C5: `sync_latest_releases` catches only
`requests.exceptions.RequestException` (source line 246).  A corrupt
archive in project `a` escapes the loop, so project `b` — whose sync
alone would succeed and advance its pointer — is never synced. -/
theorem sync_all_aborted_by_bad_zip :
    (sync_latest_releases [] [("a", remoteCorrupt), ("b", remoteOne)]
      [("a", ⟨[], []⟩), ("b", ⟨[], []⟩)]).2 = some .badZip ∧
    (storeOf (sync_latest_releases [] [("a", remoteCorrupt), ("b", remoteOne)]
        [("a", ⟨[], []⟩), ("b", ⟨[], []⟩)]).1 "b").pointers.lookup "version" = none ∧
    (sync_project remoteOne [] ⟨[], []⟩).1.pointers.lookup "version" = some "v1.0.0" := by decide

/-- Counterexample to C6: after a successful materialization (outcome
`created`) from a fresh store, no `latest` pointer exists — the code
writes only the `version` file — and a `GET /set_latest` request is not
an operation of the server: it falls through to static file serving. -/
theorem no_latest_pointer_after_fetch :
    (fetch_github_release remoteOne [] "v1.0.0" ⟨[], []⟩).2.1 = .created ∧
    (fetch_github_release remoteOne [] "v1.0.0" ⟨[], []⟩).1.pointers.lookup "latest" = none ∧
    do_GET appConfig [] ⟨"/set_latest", some "app", none⟩ gApp = (gApp, .staticServe) := by decide

/-- Counterexample to C7: the only ordering the code applies is Python
`sorted` (lexicographic), under which the malformed tag `"zzz"` is newer
than the parseable `"1.2.0"` — a parseable version is NOT placed before
all malformed ones. -/
theorem malformed_tag_sorts_before_parseable :
    codeOrder ["1.2.0", "zzz"] = ["zzz", "1.2.0"] ∧
    parseSemver "zzz" = none ∧
    parseSemver "1.2.0" = some (1, 2, 0) := by decide

theorem charListLe_total : ∀ x y : List Char, charListLe x y = true ∨ charListLe y x = true
  | [], _ => Or.inl rfl
  | _ :: _, [] => Or.inr rfl
  | a :: as, b :: bs => by
    unfold charListLe
    rcases Nat.lt_trichotomy a.toNat b.toNat with h | h | h
    · left
      rw [if_pos h]
    · rcases charListLe_total as bs with ih | ih
      · left
        rw [if_neg (by omega), if_neg (by omega)]
        exact ih
      · right
        rw [if_neg (by omega), if_neg (by omega)]
        exact ih
    · right
      rw [if_pos h]

theorem charListLe_trans : ∀ x y z : List Char, charListLe x y = true →
    charListLe y z = true → charListLe x z = true
  | [], _, _, _, _ => rfl
  | _ :: _, [], _, hxy, _ => by simp [charListLe] at hxy
  | _ :: _, _ :: _, [], _, hyz => by simp [charListLe] at hyz
  | a :: as, b :: bs, c :: cs, hxy, hyz => by
    unfold charListLe at hxy hyz ⊢
    rcases Nat.lt_trichotomy a.toNat b.toNat with h1 | h1 | h1
    · rcases Nat.lt_trichotomy b.toNat c.toNat with h2 | h2 | h2
      · rw [if_pos (by omega)]
      · rw [if_pos (by omega)]
      · rw [if_neg (by omega), if_pos h2] at hyz
        exact absurd hyz (by simp)
    · rcases Nat.lt_trichotomy b.toNat c.toNat with h2 | h2 | h2
      · rw [if_pos (by omega)]
      · have hxy2 : charListLe as bs = true := by
          rw [if_neg (by omega), if_neg (by omega)] at hxy
          exact hxy
        have hyz2 : charListLe bs cs = true := by
          rw [if_neg (by omega), if_neg (by omega)] at hyz
          exact hyz
        rw [if_neg (by omega), if_neg (by omega)]
        exact charListLe_trans as bs cs hxy2 hyz2
      · rw [if_neg (by omega), if_pos h2] at hyz
        exact absurd hyz (by simp)
    · rw [if_neg (by omega), if_pos h1] at hxy
      exact absurd hxy (by simp)

/-- C7 as amended: the only tag ordering the program has — Python
`sorted`, read newest-last by `/rollback` — is total, never fails and is
deterministic: `pySorted` always returns a permutation of its input that
is sorted (stably, ascending) under the lexicographic code-point order,
and `codeOrder` is its newest-first reading.  It is not semver-aware:
see the counterexample for malformed tags sorting ahead of parseable
ones. -/
theorem code_ordering_total_deterministic (l : List String) :
    (pySorted l).Perm l ∧
    List.Sorted (fun a b => pyLe a b = true) (pySorted l) ∧
    codeOrder l = (pySorted l).reverse := by
  haveI htot : IsTotal String (fun a b => pyLe a b = true) :=
    ⟨fun a b => charListLe_total a.data b.data⟩
  haveI htr : IsTrans String (fun a b => pyLe a b = true) :=
    ⟨fun a b c => charListLe_trans a.data b.data c.data⟩
  exact ⟨List.perm_insertionSort _ l, List.sorted_insertionSort _ l, rfl⟩

/-- C8: `/set_version` (source lines 121-136) writes the operator-supplied
tag into the `version` pointer unconditionally — the store `st` is
arbitrary, no materialization of the tag is required — and answers 400
with the state unchanged whenever the `version` parameter is missing or
empty, or the project is unknown. -/
theorem set_version_unconditional (config : Config) (badWrites : List String)
    (g : GlobalStore) (p v : String) (r : Remote) (st : ProjStore)
    (hv : v ≠ "") (hp : List.lookup p config = some r)
    (hst : List.lookup p g = some st) :
    do_GET config badWrites ⟨"/set_version", some p, some v⟩ g =
      (setA p { st with pointers := setA "version" v st.pointers } g, .ok) ∧
    (∀ q : Option String,
      do_GET config badWrites ⟨"/set_version", q, none⟩ g = (g, .badRequest)) ∧
    (∀ q : Option String,
      do_GET config badWrites ⟨"/set_version", q, some ""⟩ g = (g, .badRequest)) ∧
    (∀ w u, knownProject config u = false →
      do_GET config badWrites ⟨"/set_version", u, w⟩ g = (g, .badRequest)) := by
  have hk : knownProject config (some p) = true := by simp [knownProject, hp]
  have ht : truthy (some v) = true := by simp [truthy, hv]
  have hsto : storeOf g p = st := by simp [storeOf, hst]
  refine ⟨?_, ?_, ?_, ?_⟩
  · unfold do_GET
    simp [ht, hk, hsto]
  · intro q
    unfold do_GET
    simp [truthy]
  · intro q
    unfold do_GET
    simp [truthy]
  · intro w u hu
    unfold do_GET
    simp [hu]

/-- Witness for C8: setting an unmaterialized tag on the fresh store. -/
theorem set_version_unconditional_witness :
    do_GET appConfig [] ⟨"/set_version", some "app", some "v9.9.9"⟩ gApp =
      ([("app", ⟨[], [("version", "v9.9.9")]⟩)], .ok) :=
  (set_version_unconditional appConfig [] gApp "app" "v9.9.9" remoteApp
    ⟨[], []⟩ (by decide) rfl rfl).1

/-- C2 as amended: with at least two version directories, `/rollback`
(source lines 155-171) sets the `version` pointer to the second-from-last
directory name of Python `sorted` — the second-largest in ascending
lexicographic code-point order, not the second-newest by semantic-version
ordering — and with fewer than two it answers 400 and leaves the state
unchanged. -/
theorem rollback_second_lexicographic (config : Config) (badWrites : List String)
    (p : String) (r : Remote) (st : ProjStore) (g : GlobalStore)
    (hp : List.lookup p config = some r) (hg : List.lookup p g = some st) :
    (2 ≤ (listVersionDirs st).length →
      do_GET config badWrites ⟨"/rollback", some p, none⟩ g =
        (setA p
          { st with
            pointers :=
              setA "version"
                ((pySorted (listVersionDirs st)).getD ((listVersionDirs st).length - 2) "")
                st.pointers }
          g, .ok)) ∧
    ((listVersionDirs st).length < 2 →
      do_GET config badWrites ⟨"/rollback", some p, none⟩ g = (g, .badRequest)) := by
  have hk : knownProject config (some p) = true := by simp [knownProject, hp]
  have hsto : storeOf g p = st := by simp [storeOf, hg]
  have hlen : (pySorted (listVersionDirs st)).length = (listVersionDirs st).length :=
    List.length_insertionSort _ _
  constructor
  · intro h2
    unfold do_GET
    simp [hk, hsto, hlen, h2]
  · intro h2
    unfold do_GET
    simp [hk, hsto]
    omega

/-- Witness for C2's amended theorem at the counterexample store: the
pointer moves to `"1.2.0"`, the second-largest name lexicographically. -/
theorem rollback_second_lexicographic_witness :
    do_GET [("app", remoteApp)] [] ⟨"/rollback", some "app", none⟩
        [("app", stRollback)] =
      ([("app", ⟨stRollback.dirs, [("version", "1.2.0")]⟩)], .ok) :=
  (rollback_second_lexicographic [("app", remoteApp)] [] "app" remoteApp
    stRollback [("app", stRollback)] rfl rfl).1 (by decide)

/-- C5 as amended: `sync_latest_releases` isolates one project's
network failure (`requests.exceptions.RequestException`, the only class
its `except` clause catches, source line 246): when project `a`'s sync
fails with `requestError`, project `b` still ends in exactly the state
its own sync produces — its pointers advanced as that sync dictates.
Non-network failures are not isolated: see the counterexample. -/
theorem sync_all_isolates_network_failures (badWrites : List String)
    (a b : String) (ra rb : Remote) (g : GlobalStore) (hne : a ≠ b)
    (ha : (sync_project ra badWrites (storeOf g a)).2.1 = some .requestError) :
    storeOf (sync_latest_releases badWrites [(a, ra), (b, rb)] g).1 b =
      (sync_project rb badWrites (storeOf g b)).1 := by
  have hbney : b ≠ a := Ne.symm hne
  unfold sync_latest_releases
  rw [ha]
  have hsb : storeOf (setA a (sync_project ra badWrites (storeOf g a)).1 g) b =
      storeOf g b := by
    unfold storeOf
    rw [lookup_setA_ne a b _ hbney]
  unfold sync_latest_releases
  rw [hsb]
  cases hres : (sync_project rb badWrites (storeOf g b)).2.1 with
  | none =>
    unfold sync_latest_releases storeOf
    rw [lookup_setA_self]
    rfl
  | some e =>
    cases e with
    | requestError =>
      unfold sync_latest_releases storeOf
      rw [lookup_setA_self]
      rfl
    | badZip =>
      unfold storeOf
      rw [lookup_setA_self]
      rfl
    | ioError =>
      unfold storeOf
      rw [lookup_setA_self]
      rfl

/-- Witness for C5's amended theorem: project `a` offline at the tag
listing, project `b` healthy; `b`'s pointer is still advanced. -/
theorem sync_all_isolates_network_failures_witness :
    storeOf (sync_latest_releases []
        [("a", remoteOffline), ("b", remoteOne)]
        [("a", ⟨[], []⟩), ("b", ⟨[], []⟩)]).1 "b" =
      (sync_project remoteOne []
        (storeOf [("a", ⟨[], []⟩), ("b", ⟨[], []⟩)] "b")).1 :=
  sync_all_isolates_network_failures [] "a" "b" remoteOffline remoteOne
    [("a", ⟨[], []⟩), ("b", ⟨[], []⟩)] (by decide) (by decide)

theorem versionOnly_setA {pts : List (String × String)} (h : versionOnly pts)
    (v : String) : versionOnly (setA "version" v pts) := by
  intro kv hkv
  rcases mem_setA "version" v kv pts hkv with h1 | h1
  · simp [h1]
  · exact h kv h1

theorem fetch_versionOnly (remote : Remote) (badWrites : List String)
    (tag : String) (st : ProjStore) (h : versionOnly st.pointers) :
    versionOnly (fetch_github_release remote badWrites tag st).1.pointers := by
  rcases fetch_pointers_cases remote badWrites tag st with hc | hc
  · rw [hc]
    exact h
  · rw [hc.2]
    exact versionOnly_setA h tag

theorem syncTags_versionOnly (remote : Remote) (badWrites : List String) :
    ∀ (tags : List String) (st : ProjStore), versionOnly st.pointers →
      versionOnly (syncTags remote badWrites tags st).1.pointers
  | [], st, h => h
  | t :: rest, st, h => by
    have h1 : versionOnly (fetch_github_release remote badWrites t st).1.pointers :=
      fetch_versionOnly remote badWrites t st h
    unfold syncTags
    cases hf : fetch_github_release remote badWrites t st with
    | mk st₁ rn =>
      rw [hf] at h1
      cases rn with
      | mk oc n =>
        cases oc with
        | alreadyPresent => exact syncTags_versionOnly remote badWrites rest st₁ h1
        | created => exact syncTags_versionOnly remote badWrites rest st₁ h1
        | failed e => exact h1

theorem sync_project_versionOnly (remote : Remote) (badWrites : List String)
    (st : ProjStore) (h : versionOnly st.pointers) :
    versionOnly (sync_project remote badWrites st).1.pointers := by
  unfold sync_project
  cases hm : get_latest_tags remote 2 with
  | error e => exact h
  | ok tags => exact syncTags_versionOnly remote badWrites tags st h

theorem storeOf_versionOnly (g : GlobalStore) (p : String)
    (h : onlyVersionPointers g) : versionOnly (storeOf g p).pointers := by
  unfold storeOf
  cases hm : List.lookup p g with
  | none =>
    intro kv hkv
    simp at hkv
  | some st => exact h (p, st) (lookup_mem p st g hm)

theorem setA_onlyVersionPointers {g : GlobalStore} (p : String)
    {st : ProjStore} (hg : onlyVersionPointers g)
    (hst : versionOnly st.pointers) : onlyVersionPointers (setA p st g) := by
  intro ps hps
  rcases mem_setA p st ps g hps with h1 | h1
  · rw [h1]
    exact hst
  · exact hg ps h1

theorem sync_latest_releases_versionOnly (badWrites : List String) :
    ∀ (config : Config) (g : GlobalStore), onlyVersionPointers g →
      onlyVersionPointers (sync_latest_releases badWrites config g).1
  | [], _, hg => hg
  | (p, remote) :: rest, g, hg => by
    have hsp : versionOnly (sync_project remote badWrites (storeOf g p)).1.pointers :=
      sync_project_versionOnly remote badWrites (storeOf g p)
        (storeOf_versionOnly g p hg)
    have hg1 : onlyVersionPointers
        (setA p (sync_project remote badWrites (storeOf g p)).1 g) :=
      setA_onlyVersionPointers p hg hsp
    unfold sync_latest_releases
    cases hm : (sync_project remote badWrites (storeOf g p)).2.1 with
    | none => exact sync_latest_releases_versionOnly badWrites rest _ hg1
    | some e =>
      cases e with
      | requestError => exact sync_latest_releases_versionOnly badWrites rest _ hg1
      | badZip => exact hg1
      | ioError => exact hg1

theorem do_GET_versionOnly (config : Config) (badWrites : List String)
    (req : Request) (g : GlobalStore) (hg : onlyVersionPointers g) :
    onlyVersionPointers (do_GET config badWrites req g).1 := by
  unfold do_GET
  split
  · split
    · exact setA_onlyVersionPointers _ hg
        (versionOnly_setA (storeOf_versionOnly g _ hg) _)
    · exact hg
  · split
    · dsimp only
      split
      · exact setA_onlyVersionPointers _ hg
          (sync_project_versionOnly _ badWrites _ (storeOf_versionOnly g _ hg))
      · exact setA_onlyVersionPointers _ hg
          (sync_project_versionOnly _ badWrites _ (storeOf_versionOnly g _ hg))
    · split
      · dsimp only
        split
        · exact setA_onlyVersionPointers _ hg
            (versionOnly_setA (storeOf_versionOnly g _ hg) _)
        · exact hg
      · exact hg

/-- C6 as amended: the program maintains no `latest` pointer record at
all.  From any state whose pointer files are at most the `version` file
(as every reachable state is), every request handled by `do_GET` and
every pass of `sync_latest_releases` again writes only `version` — so a
`latest` record never comes into existence — and a `GET /set_latest`
request is no operation of the server: it falls through to static file
serving. -/
theorem no_latest_pointer_invariant (config : Config) (badWrites : List String)
    (req : Request) (g : GlobalStore) (hg : onlyVersionPointers g) :
    onlyVersionPointers (do_GET config badWrites req g).1 ∧
    onlyVersionPointers (sync_latest_releases badWrites config g).1 ∧
    (req.path = "/set_latest" → do_GET config badWrites req g = (g, .staticServe)) := by
  refine ⟨do_GET_versionOnly config badWrites req g hg,
    sync_latest_releases_versionOnly badWrites config g hg, ?_⟩
  intro hpath
  unfold do_GET
  rw [hpath]
  simp

/-- Witness for C6's amended theorem on the concrete one-project setup. -/
theorem no_latest_pointer_invariant_witness :
    onlyVersionPointers
      (do_GET appConfig [] ⟨"/sync_now", some "app", none⟩ gApp).1 ∧
    onlyVersionPointers (sync_latest_releases [] appConfig gApp).1 ∧
    (("/sync_now" : String) = "/set_latest" →
      do_GET appConfig [] ⟨"/sync_now", some "app", none⟩ gApp =
        (gApp, .staticServe)) :=
  no_latest_pointer_invariant appConfig [] ⟨"/sync_now", some "app", none⟩ gApp
    (by decide)

end Ota

